import Mathlib

/-!
Verification development for the `destiny-weapon-deduper` repository
(`scripts/youtube-agent/youtube_agent.py`).

The Python source is shallowly embedded below.  Python strings are modelled
by Lean `String` (a wrapper around `List Char`); Python string methods that
the source uses (`lower`, `strip`, `join`, slicing, `in`, `str(int)`) are
embedded as executable char-list functions so that the kernel can evaluate
them.  Python `dict`s that the source only reads are modelled by association
lists with `List.lookup`.  External collaborators (the rapidfuzz
`process.extractOne` scorer, the Gemini generation provider, `json.loads` /
`json.dumps`) are supplied as explicit parameters, exactly at the call
boundary the source uses them.  Fallible Python code (code that can raise)
is embedded in `Except`.
-/

namespace YTAgent

/-! ## Embedded Python string primitives -/

/-- Python `str.lower()` (ASCII case folding, which is all the source relies on). -/
def pyLower (s : String) : String := String.mk (s.data.map Char.toLower)

/-- Python `str.strip()`: drop leading and trailing whitespace. -/
def pyStrip (s : String) : String :=
  String.mk (((s.data.dropWhile Char.isWhitespace).reverse.dropWhile Char.isWhitespace).reverse)

/-- Python slicing `s[:n]` (by code points). -/
def pyTake (n : Nat) (s : String) : String := String.mk (s.data.take n)

/-- Python `needle in hay` on strings (substring test). -/
def pyIn (needle hay : String) : Bool := decide (needle.data <:+: hay.data)

/-- Separator interleaving on char lists (the semantics of Python
`sep.join`): empty for no pieces, the piece itself for one piece, otherwise
the pieces with the separator in between. -/
def joinSep (sep : List Char) : List (List Char) → List Char
  | [] => []
  | [p] => p
  | p :: q :: qs => p ++ sep ++ joinSep sep (q :: qs)

/-- Python `sep.join(xs)`. -/
def pyJoin (sep : String) (xs : List String) : String :=
  String.mk (joinSep sep.data (xs.map String.data))

/-- Decimal digit character for `d < 10` (used to embed Python `str(intValue)`). -/
def digitChar : Nat → Char
  | 0 => '0' | 1 => '1' | 2 => '2' | 3 => '3' | 4 => '4'
  | 5 => '5' | 6 => '6' | 7 => '7' | 8 => '8' | _ => '9'

/-- Fuel-driven decimal conversion (structural recursion so that the kernel
can evaluate it); adequate whenever `n < fuel`. -/
def natDigitsAux : Nat → Nat → List Char
  | 0, _ => []
  | fuel + 1, n =>
    if n < 10 then [digitChar n]
    else natDigitsAux fuel (n / 10) ++ [digitChar (n % 10)]

/-- Decimal digit list of a natural number, most significant first. -/
def natDigits (n : Nat) : List Char := natDigitsAux (n + 1) n

/-- Python `str(n)` for a non-negative integer. -/
def natToStr (n : Nat) : String := String.mk (natDigits n)

/-- Python truthiness of an optional integer (`None` and `0` are falsy). -/
def pyTruthyOpt : Option Nat → Bool
  | none => false
  | some n => decide (n ≠ 0)

/-! ## Identifier Resolver (`lookup_hash`, youtube_agent.py lines 510-528)

The optional rapidfuzz capability (`HAS_FUZZY` plus `process.extractOne`
with the `token_sort_ratio` scorer) is modelled as an optional function
from a query and the list of table keys to the best `(key, score)` pair;
scores live in `ℚ` (rapidfuzz scores are reals in `[0, 100]`, and the
source only compares them with a threshold). -/

/-- Model of the optional rapidfuzz capability: `none` when rapidfuzz is not
installed (`HAS_FUZZY = False`), otherwise the behaviour of
`process.extractOne(query, keys, scorer=fuzz.token_sort_ratio)`. -/
abbrev Fuzzy : Type := Option (String → List String → Option (String × ℚ))

/-- Embedding of `lookup_hash(name, lookup_dict, threshold=75)`.

Mirrors the source line by line: empty (falsy) name short-circuits; the
input is lower-cased then stripped; an exact key hit returns `(hash, True)`;
otherwise, when fuzzy matching is available and the dict is non-empty,
`process.extractOne` is consulted and its best match is accepted exactly
when its score is `≥ threshold`, returned with flag `False` (fuzzy); in all
remaining cases the result is `(None, False)`. -/
def lookup_hash (fz : Fuzzy) (name : String) (lookup_dict : List (String × Nat))
    (threshold : ℚ) : Option Nat × Bool :=
  if name = "" then (none, false)
  else
    let name_lower := pyStrip (pyLower name)
    match lookup_dict.lookup name_lower with
    | some v => (some v, true)
    | none =>
      match fz with
      | none => (none, false)
      | some extractOne =>
        if lookup_dict.isEmpty then (none, false)
        else
          match extractOne name_lower (lookup_dict.map Prod.fst) with
          | some (matched_name, score) =>
            if threshold ≤ score then (lookup_dict.lookup matched_name, false)
            else (none, false)
          | none => (none, false)

/-! ## Roll-to-Wishlist Compiler (`convert_to_dim_format`, lines 616-710) -/

/-- A parsed roll record as consumed by `convert_to_dim_format`.  Fields the
source reads through `roll.get(key, default)` with a string default are
plain strings (absence coincides with the default); `mode` keeps absence
separate because its default `'Both'` matters to tag derivation, and the
four perk columns keep absence (or JSON `null`, which `roll.get` also
returns as `None`) separate because the source normalises them with
`roll.get(column_key) or []`. -/
structure RollRecord where
  weapon : String
  mode : Option String
  barrel : Option (List String)
  magazine : Option (List String)
  trait1 : Option (List String)
  trait2 : Option (List String)
  reasoning : String
  timestamp : String

/-- Environment of `convert_to_dim_format`: the fuzzy capability and the two
module-level lookup tables `WEAPON_LOOKUP` and `PERK_LOOKUP`. -/
structure CompilerEnv where
  fz : Fuzzy
  weaponLookup : List (String × Nat)
  perkLookup : List (String × Nat)

/-- Itertools `product(*columns)`: cartesian product over a list of lists,
first list outermost, as lists of picks. -/
def pyProduct {α : Type} : List (List α) → List (List α)
  | [] => [[]]
  | xs :: rest => xs.flatMap (fun x => (pyProduct rest).map (fun t => x :: t))

/-- One resolved entry of a perk column: `(hash, perkName)` for the real
entries the source appends, `(none, none)` for the `(None, None)`
placeholder. -/
abbrev ColumnEntry : Type := Option Nat × Option String

/-- Per-column resolution loop of `convert_to_dim_format` (lines 658-669):
every perk name that is truthy and not the literal `'null'` is resolved with
`lookup_hash` against `PERK_LOOKUP`; truthy hashes are kept (with a fuzzy
review item when inexact), unresolved names produce a review item and are
dropped; a column that ends empty becomes the single placeholder
`[(None, None)]`.  Returns the column together with its review items. -/
def resolveStep (env : CompilerEnv) (acc : List ColumnEntry × List String)
    (perk : String) : List ColumnEntry × List String :=
  if perk ≠ "" ∧ perk ≠ "null" then
    if pyTruthyOpt (lookup_hash env.fz perk env.perkLookup 75).1 then
      (acc.1 ++ [((lookup_hash env.fz perk env.perkLookup 75).1, some perk)],
       acc.2 ++ (if (lookup_hash env.fz perk env.perkLookup 75).2 then []
         else ["⚠️ Fuzzy perk match: '" ++ perk ++ "'"]))
    else (acc.1, acc.2 ++ ["❓ Unknown perk: '" ++ perk ++ "'"])
  else acc

/-- The per-column loop: fold `resolveStep` over the listed perk names, then
substitute the placeholder when no perk resolved. -/
def resolveColumn (env : CompilerEnv) (perks : List String) :
    List ColumnEntry × List String :=
  let r := perks.foldl (resolveStep env) ([], [])
  ((if r.1.isEmpty then [(none, none)] else r.1), r.2)

/-- The tags field of a line (line 703): `",".join(tags) if tags else "pve"`. -/
def tagsStr (tags : List String) : String :=
  if tags.isEmpty then "pve" else pyJoin "," tags

/-- The `dimwishlist:` line built for one perk combination (line 705). -/
def dimLine (weapon_hash : Nat) (perk_hashes : List Nat) (short_note : String)
    (tags : List String) : String :=
  "dimwishlist:item=" ++ (natToStr weapon_hash ++ ("&perks="
    ++ (pyJoin "," (perk_hashes.map natToStr) ++ ("#notes:" ++ (short_note
    ++ ("|tags:" ++ tagsStr tags))))))

/-- The body of the per-combination loop (lines 694-706): drop placeholder
entries from the tuple, skip the tuple when no hash remains, otherwise build
its `dimwishlist:` line. -/
def comboLine (wh : Nat) (note : String) (tags : List String)
    (combo : List ColumnEntry) : Option String :=
  if (combo.filterMap (fun e => e.1)).isEmpty then none
  else some (dimLine wh (combo.filterMap (fun e => e.1)) note tags)

/-- Note truncation and sanitisation (lines 684-685): reasoning truncated to
100 characters with an ellipsis appended when truncated, then newlines
replaced by spaces and `'|'` by `'-'`. -/
def shortNote (reasoning : String) : String :=
  let t := if 100 < reasoning.data.length
    then String.mk (reasoning.data.take 100) ++ "..." else reasoning
  String.mk (t.data.map (fun c =>
    let c1 := if c = '\n' then ' ' else c
    if c1 = '|' then '-' else c1))

/-- Tag list derived from the mode value (lines 672-677): `pve` when the
mode is `PvE` or `Both`, then `pvp` when it is `PvP` or `Both`. -/
def tagsOfMode (mode : String) : List String :=
  (if mode = "PvE" ∨ mode = "Both" then ["pve"] else [])
    ++ (if mode = "PvP" ∨ mode = "Both" then ["pvp"] else [])

/-- The per-roll body of `convert_to_dim_format` (lines 644-708): resolve the
weapon, on a falsy hash emit nothing but the unknown-weapon review item; on a
fuzzy weapon hit add its review item; resolve the four columns, derive tags
and the sanitised note, emit the `//notes:` block comment, one
`dimwishlist:` line per cartesian-product tuple that keeps at least one real
hash after dropping placeholders, and a trailing blank line.  Returns
`(lines, review items)` for the roll. -/
def compileRoll (env : CompilerEnv) (roll : RollRecord) : List String × List String :=
  let weapon_name := roll.weapon
  let resolved := lookup_hash env.fz weapon_name env.weaponLookup 75
  if pyTruthyOpt resolved.1 = false then
    ([], ["❓ Unknown weapon: '" ++ weapon_name ++ "'"])
  else
    let wh := resolved.1.getD 0
    let u0 := if resolved.2 then []
      else ["⚠️ Fuzzy weapon match: '" ++ weapon_name ++ "'"]
    let cb := resolveColumn env (roll.barrel.getD [])
    let cm := resolveColumn env (roll.magazine.getD [])
    let c1 := resolveColumn env (roll.trait1.getD [])
    let c2 := resolveColumn env (roll.trait2.getD [])
    let columns := [cb.1, cm.1, c1.1, c2.1]
    let mode := roll.mode.getD "Both"
    let tags := tagsOfMode mode
    let short_note := shortNote roll.reasoning
    let block_comment := "//notes:" ++ (weapon_name ++ (" - " ++ (mode
      ++ (if roll.timestamp ≠ "" then " @ " ++ roll.timestamp else ""))))
    let comboLines := (pyProduct columns).filterMap (comboLine wh short_note tags)
    (block_comment :: comboLines ++ [""], u0 ++ cb.2 ++ cm.2 ++ c1.2 ++ c2.2)

/-- Embedding of `convert_to_dim_format(all_raw_rolls, wishlist_name,
description)`.  Video metadata is read but unused by the source (the local
`video_title` is dead), so the input is the list of per-video roll lists.
Returns the joined wishlist text and the accumulated review items. -/
def convert_to_dim_format (env : CompilerEnv) (all_raw_rolls : List (List RollRecord))
    (wishlist_name description : String) : String × List String :=
  let blocks := all_raw_rolls.flatMap (fun rolls => rolls.map (compileRoll env))
  let lineList := ["title:" ++ wishlist_name, "description:" ++ description, ""]
    ++ blocks.flatMap Prod.fst
  (pyJoin "\n" lineList, blocks.flatMap Prod.snd)

/-- Line predicate used by the driver to count emitted wishlist entries
(`line.startswith('dimwishlist:')`, youtube_agent.py line 848). -/
def isDimLine (line : String) : Bool := "dimwishlist:".data.isPrefixOf line.data

/-- Concrete compiler environment used to witness the compiler theorems. -/
def envW : CompilerEnv :=
  CompilerEnv.mk none [("fatebringer", 100)] [("outlaw", 1), ("kill clip", 2)]

/-- Concrete roll record used to witness the compiler theorems. -/
def rollW : RollRecord :=
  RollRecord.mk "Fatebringer" (some "PvE") none (some [])
    (some ["Outlaw", "Kill Clip"]) (some ["Bogus"]) "r" ""

/-! ## Extraction Client (`call_gemini`, youtube_agent.py lines 393-412)

The provider (`client.models.generate_content`) is an external collaborator:
it is modelled as a function from the attempt index to the outcome of that
attempt — `.ok text` for a successful response, `.error s` where `s` is
`str(e)` of the raised exception.  The embedding returns the result string
together with the list of back-off sleeps performed (each `time.sleep`
argument, in order), so that the retry/wait schedule is part of the observable
behaviour. -/

/-- The configured model name (line 36). -/
def MODEL_NAME : String := "gemini-3-flash-preview"

/-- The rate-limit classification (line 404):
`"429" in error_str or "RESOURCE_EXHAUSTED" in error_str`. -/
def isRateLimit (e : String) : Bool := pyIn "429" e || pyIn "RESOURCE_EXHAUSTED" e

/-- The `for attempt in range(max_retries)` loop of `call_gemini`, over the
remaining attempt indices.  On success return the text; on a rate-limit
error sleep `base_wait * (attempt + 1)` and continue; on a `"404"` error
return the model-not-found sentinel; on any other error return the error
text; when attempts are exhausted return the distinct failure sentinel. -/
def callGeminiLoop (provider : Nat → Except String String) (base_wait : Nat) :
    List Nat → String × List Nat
  | [] => ("❌ Failed after multiple retries.", [])
  | attempt :: rest =>
    match provider attempt with
    | Except.ok t => (t, [])
    | Except.error e =>
      if isRateLimit e then
        ((callGeminiLoop provider base_wait rest).1,
          base_wait * (attempt + 1) :: (callGeminiLoop provider base_wait rest).2)
      else if pyIn "404" e then
        ("❌ Model '" ++ MODEL_NAME ++ "' not found. Check model name.", [])
      else ("⚠️ Error: " ++ e, [])

/-- Embedding of `call_gemini(prompt, max_retries=5, base_wait=15)`: the
result string together with the sleep log.  (The prompt itself only flows to
the provider, which the model abstracts per attempt.) -/
def call_gemini (provider : Nat → Except String String)
    (max_retries base_wait : Nat) : String × List Nat :=
  callGeminiLoop provider base_wait (List.range max_retries)

/-- Provider used to witness C3: rate-limited on the first attempt, then a
successful response. -/
def providerW : Nat → Except String String :=
  fun i => if i = 0 then Except.error "429 RESOURCE_EXHAUSTED" else Except.ok "ok-response"

/-! ## Wishlist line round-trip (C6)

The source contains no parser; `parseDimLine` is modelled from the
documented output format (spec §6): the weapon id sits between `item=` and
`&perks=`, the comma-separated perk ids before `#notes:`, and the
comma-separated tags after `|tags:`. -/

/-- Split a char list at the first occurrence of `delim`: the part strictly
before the occurrence and the part strictly after it. -/
def splitFirst (delim : List Char) : List Char → Option (List Char × List Char)
  | [] => if delim.isPrefixOf [] then some ([], []) else none
  | c :: cs =>
    if delim.isPrefixOf (c :: cs) then some ([], (c :: cs).drop delim.length)
    else
      match splitFirst delim cs with
      | some (a, b) => some (c :: a, b)
      | none => none

/-- Split a char list on every occurrence of a separator character. -/
def splitOnChar (sep : Char) : List Char → List (List Char)
  | [] => [[]]
  | c :: cs =>
    if c = sep then [] :: splitOnChar sep cs
    else
      match splitOnChar sep cs with
      | [] => [[c]]
      | p :: ps => (c :: p) :: ps

/-- Numeric value of a decimal digit character. -/
def charDigitVal (c : Char) : Nat := c.toNat - 48

/-- Decimal decoding (Python `int`) of a digit string. -/
def decodeDigits (cs : List Char) : Nat :=
  cs.foldl (fun a c => a * 10 + charDigitVal c) 0

/-- Parser for the documented `dimwishlist:` line format.  Modelled from the
spec (§6), which documents the exact line shape; the repository itself never
parses its own output. -/
def parseDimLine (line : String) : Option (Nat × List Nat × List String) :=
  match splitFirst "dimwishlist:item=".data line.data with
  | some ([], rest1) =>
    match splitFirst "&perks=".data rest1 with
    | some (idPart, rest2) =>
      match splitFirst "#notes:".data rest2 with
      | some (perksPart, rest3) =>
        match splitFirst "|tags:".data rest3 with
        | some (_, tagsPart) =>
          some (decodeDigits idPart,
            ((splitOnChar ',' perksPart).map decodeDigits,
             (splitOnChar ',' tagsPart).map String.mk))
        | none => none
      | none => none
    | none => none
  | _ => none

/-! ## Two-Pass Orchestrator (`analyze_transcript`, youtube_agent.py lines 415-494)

The generation client is the collaborator boundary: `analyze_transcript`
calls `call_gemini(prompt)`, which always returns a string (theorem
`call_gemini_retry_contract`); the orchestrator model therefore takes the
client as a function from the call index (calls are numbered in the order
they are issued) and the prompt to the response text.  `json.loads` /
`json.dumps` are Python-stdlib collaborators and are supplied as functions
over an embedded JSON value type.  Python code that can raise `TypeError` /
`AttributeError` on ill-typed model output is embedded in `Except`. -/

/-- Embedded JSON values (the results of `json.loads`). -/
inductive Json where
  | null
  | bool (b : Bool)
  | num (q : ℚ)
  | str (s : String)
  | arr (elems : List Json)
  | obj (fields : List (String × Json))

/-- Python truthiness of a JSON value. -/
def Json.truthy : Json → Bool
  | .null => false
  | .bool b => b
  | .num q => decide (q ≠ 0)
  | .str s => decide (s ≠ "")
  | .arr l => !l.isEmpty
  | .obj f => !f.isEmpty

/-- Python `dict.get(key, default)` on a JSON object fields. -/
def jsonGet (fields : List (String × Json)) (k : String) (default : Json) : Json :=
  match fields.lookup k with
  | some v => v
  | none => default

/-- Python `str()` of a JSON value as interpolated into a prompt; exact for
the strings the source actually interpolates, an abstraction for numeric and
collection values (which never occur in well-typed responses and only flow
into prompt text). -/
def pyStrJson : Json → String
  | .null => "None"
  | .bool b => if b then "True" else "False"
  | .num _ => "<number>"
  | .str s => s
  | .arr _ => "<list>"
  | .obj _ => "<dict>"

def GOD_ROLL_PROMPT : String :=
  String.intercalate ""
    ["\n",
     "You are a Destiny 2 expert analyzing a video transcript for god roll weapon recommendations.\n",
     "\n",
     "DESTINY 2 WEAPON STRUCTURE:\n",
     "Weapons have distinct perk columns:\n",
     "- Column 1: Barrels/Sights (affects stats like stability, range, handling)\n",
     "- Column 2: Magazines/Batteries (affects ammo, reload, stats)\n",
     "- Column 3: Trait 1 (first main perk - e.g., Outlaw, Subsistence, Slideshot)\n",
     "- Column 4: Trait 2 (second main perk - e.g., Kill Clip, Rampage, Headstone)\n",
     "- Origin Trait: Weapon-specific perk (e.g., Skulking Wolf, Vanguard\x27s Vindication)\n",
     "- Masterwork: Stat boost (Range, Stability, Handling, Reload Speed)\n",
     "\n",
     "OUTPUT FORMAT - Return ONLY valid JSON, no markdown:\n",
     "[\n",
     "  \x7b\n",
     "    \"weapon\": \"Exact weapon name\",\n",
     "    \"mode\": \"PvE\" | \"PvP\" | \"Both\",\n",
     "    \"barrel\": [\"Perk Name\"],\n",
     "    \"magazine\": [\"Perk Name\"],\n",
     "    \"trait1\": [\"Perk Name\", \"Alternative Perk\"],\n",
     "    \"trait2\": [\"Perk Name\"],\n",
     "    \"masterwork\": \"Stat Name or null\",\n",
     "    \"originTrait\": \"Perk Name or null\",\n",
     "    \"reasoning\": \"Why these perks synergize and what playstyle they enable\",\n",
     "    \"timestamp\": \"MM:SS\"\n",
     "  \x7d\n",
     "]\n",
     "\n",
     "RULES:\n",
     "1. Use EXACT Destiny 2 perk names with proper capitalization\n",
     "2. Include \"The\" prefix for weapons that have it (e.g., \"The Martlet\", \"The Immortal\")\n",
     "3. If creator says \"X or Y\" for a column, put both in that column\x27s array as alternatives\n",
     "4. Extract recommendations even if only trait1 OR trait2 is mentioned - partial rolls are OK\n",
     "5. Separate PvE and PvP as different entries ONLY if they have different perks\n",
     "6. The \"reasoning\" field must explain WHY these perks work together, not just restate them\n",
     "7. Auto-captions have errors - use your Destiny 2 knowledge to correct obvious mishearings\n",
     "   (e.g., \"vorpal\" not \"vorp all\", \"Kill Clip\" not \"kill clip\")\n",
     "8. If a column isn\x27t mentioned, use null (don\x27t guess)\n",
     "9. If no god rolls are discussed, return: []\n",
     "10. IMPORTANT: Extract only the PRIMARY weapon being recommended, NOT comparison weapons.\n",
     "    Creators often say \"this is better than X\" or \"unlike Y\" - ignore X and Y, focus on the main subject.\n",
     "11. Use the EXACT weapon name as spoken in the transcript. Do not substitute similar-sounding names.\n",
     "    For example, if they say \"Modified B7 Pistol\", use that exact name - not \"Exigent B7\".\n",
     "\n",
     "EXAMPLE OUTPUT:\n",
     "[\n",
     "  \x7b\n",
     "    \"weapon\": \"Solemn Remembrance\",\n",
     "    \"mode\": \"PvE\",\n",
     "    \"barrel\": [\"Arrowhead Brake\"],\n",
     "    \"magazine\": [\"Tactical Mag\"],\n",
     "    \"trait1\": [\"Headstone\"],\n",
     "    \"trait2\": [\"Firefly\"],\n",
     "    \"masterwork\": \"Stability\",\n",
     "    \"originTrait\": null,\n",
     "    \"reasoning\": \"Headstone creates a Stasis crystal on precision kills, and Firefly\x27s explosion instantly shatters it, causing chain reaction damage for exceptional add clear.\",\n",
     "    \"timestamp\": \"01:42\"\n",
     "  \x7d\n",
     "]\n",
     "\n",
     "TRANSCRIPT:\n",
     ""]

def WEAPON_EXTRACT_PROMPT : String :=
  String.intercalate ""
    ["\n",
     "You are a Destiny 2 expert. Analyze this video transcript and extract ONLY the weapon names being recommended.\n",
     "\n",
     "RULES:\n",
     "1. Extract only the PRIMARY weapon(s) being recommended, NOT comparison weapons\n",
     "2. Creators often say \"this is better than X\" - ignore X, extract only the main weapon\n",
     "3. Include \"The\" prefix if the weapon has it (e.g., \"The Martlet\")\n",
     "4. Use the EXACT weapon name as spoken\n",
     "5. Return weapon names and their recommended mode (PvE/PvP/Both)\n",
     "\n",
     "OUTPUT FORMAT - Return ONLY valid JSON:\n",
     "[\n",
     "  \x7b\"weapon\": \"Exact Weapon Name\", \"mode\": \"PvE\" | \"PvP\" | \"Both\"\x7d\n",
     "]\n",
     "\n",
     "If no weapons are recommended, return: []\n",
     "\n",
     "TRANSCRIPT:\n",
     ""]

def constrainedRollPrompt (weapon_name mode barrels magazines trait1 trait2 : String) : String :=
  String.intercalate ""
    ["\n",
     "You are a Destiny 2 expert analyzing a video transcript for god roll recommendations.\n",
     "\n",
     "WEAPON: ",
     weapon_name,
     "\n",
     "MODE: ",
     mode,
     "\n",
     "\n",
     "VALID PERKS FOR THIS WEAPON (only use perks from these lists):\n",
     "- Barrels: ",
     barrels,
     "\n",
     "- Magazines: ",
     magazines,
     "\n",
     "- Trait 1: ",
     trait1,
     "\n",
     "- Trait 2: ",
     trait2,
     "\n",
     "\n",
     "OUTPUT FORMAT - Return ONLY valid JSON, no markdown:\n",
     "\x7b\n",
     "  \"weapon\": \"",
     weapon_name,
     "\",\n",
     "  \"mode\": \"",
     mode,
     "\",\n",
     "  \"barrel\": [\"Perk Name\"] or null,\n",
     "  \"magazine\": [\"Perk Name\"] or null,\n",
     "  \"trait1\": [\"Perk Name\", \"Alternative\"],\n",
     "  \"trait2\": [\"Perk Name\"],\n",
     "  \"masterwork\": \"Stat Name\" or null,\n",
     "  \"originTrait\": \"Perk Name\" or null,\n",
     "  \"reasoning\": \"Why these perks synergize\",\n",
     "  \"timestamp\": \"MM:SS\"\n",
     "\x7d\n",
     "\n",
     "RULES:\n",
     "1. ONLY use perks from the VALID PERKS lists above\n",
     "2. If a perk mentioned in the video is NOT in the valid list, skip it\n",
     "3. If creator says \"X or Y\", include both if they\x27re in the valid list\n",
     "4. Extract the timestamp where this roll is discussed\n",
     "5. Explain WHY these perks work together in the reasoning field\n",
     "\n",
     "TRANSCRIPT:\n"]

/-- The head fence-stripping regex of `parse_gemini_response` (line 502,
pattern `^`-fence-`json?` with trailing greedy whitespace): it requires the
literal fence followed by `jso` and an optional `n`, so a bare fence head
does not match. -/
def stripFenceHead (l : List Char) : List Char :=
  if "```jso".data.isPrefixOf l then
    let r1 := l.drop 6
    let r2 := if "n".data.isPrefixOf r1 then r1.drop 1 else r1
    r2.dropWhile Char.isWhitespace
  else l

/-- The tail fence-stripping regex of `parse_gemini_response` (line 503,
pattern whitespace-then-fence anchored at the end): drop a trailing fence
and the whitespace before it. -/
def stripFenceTail (l : List Char) : List Char :=
  let r := l.reverse
  if "```".data.isPrefixOf r then ((r.drop 3).dropWhile Char.isWhitespace).reverse
  else l

/-- Embedding of `parse_gemini_response(response_text)` (lines 496-508):
strip the response, strip code-fence markers when the text starts with
` ``` `, then hand to `json.loads` (the `loads` collaborator); parse failure
is `none`. -/
def parse_gemini_response (loads : String → Option Json) (response_text : String) :
    Option Json :=
  let text := pyStrip response_text
  let text2 := if "```".data.isPrefixOf text.data
    then String.mk (stripFenceTail (stripFenceHead text.data))
    else text
  loads text2

/-- A per-weapon perk pool as loaded from `weapon_perk_pools.json`. -/
structure PerkPool where
  name : String
  barrels : List Nat
  magazines : List Nat
  trait1 : List Nat
  trait2 : List Nat
  origin : List Nat

/-- The per-column valid perk names handed to the constrained prompt. -/
structure ValidPerks where
  barrels : List String
  magazines : List String
  trait1 : List String
  trait2 : List String
  origin : List String

/-- `hashes_to_names` (lines 187-193): translate perk hashes to display
names via `PERK_NAMES` (a JSON table, so its keys are decimal strings; the
second lookup of the source, with an integer key, can never hit), and
silently drop hashes with no (or an empty) name. -/
def hashes_to_names (perkNames : List (String × String)) (hs : List Nat) : List String :=
  hs.filterMap (fun h =>
    match perkNames.lookup (natToStr h) with
    | some n => if n ≠ "" then some n else none
    | none => none)

/-- Build the `ValidPerks` dictionary returned by
`get_valid_perks_for_weapon` from a pool. -/
def mkValidPerks (perkNames : List (String × String)) (pool : PerkPool) : ValidPerks :=
  ValidPerks.mk (hashes_to_names perkNames pool.barrels)
    (hashes_to_names perkNames pool.magazines)
    (hashes_to_names perkNames pool.trait1)
    (hashes_to_names perkNames pool.trait2)
    (hashes_to_names perkNames pool.origin)

/-- Python dict insertion (later duplicate keys overwrite the value but keep
the first position), used for the `pool_names` comprehension. -/
def dictInsert {α : Type} (assoc : List (String × α)) (k : String) (v : α) :
    List (String × α) :=
  if (assoc.lookup k).isSome then
    assoc.map (fun p => if p.1 = k then (k, v) else p)
  else assoc ++ [(k, v)]

/-- Python dict built from a list of pairs. -/
def pyDict {α : Type} (pairs : List (String × α)) : List (String × α) :=
  pairs.foldl (fun a p => dictInsert a p.1 p.2) []

/-- Environment of the orchestrator: the generation client (per call index),
the JSON collaborators, the optional rapidfuzz capability and the two
module-level tables `WEAPON_PERK_POOLS` and `PERK_NAMES`. -/
structure OrchEnv where
  gemini : Nat → String → String
  loads : String → Option Json
  dumps : Json → String
  fuzzyPools : Fuzzy
  pools : List (String × PerkPool)
  perkNames : List (String × String)

/-- Embedding of `get_valid_perks_for_weapon(weapon_name)` (lines 176-227):
exact case-insensitive match of the pool display name first (the input is
lower-cased and stripped, the pool name only lower-cased), then — when
rapidfuzz is available — a fuzzy match over the lower-cased pool names with
hard-coded threshold 75; `none` on a total miss. -/
def get_valid_perks_for_weapon (env : OrchEnv) (weapon_name : String) :
    Option ValidPerks :=
  if env.pools.isEmpty ∨ env.perkNames.isEmpty then none
  else
    let weapon_name_lower := pyStrip (pyLower weapon_name)
    match env.pools.find? (fun p => pyLower p.2.name == weapon_name_lower) with
    | some p => some (mkValidPerks env.perkNames p.2)
    | none =>
      match env.fuzzyPools with
      | none => none
      | some extractOne =>
        let pool_names := pyDict (env.pools.map (fun p => (pyLower p.2.name, p)))
        match extractOne weapon_name_lower (pool_names.map Prod.fst) with
        | some (matched, score) =>
          if 75 ≤ score then
            (pool_names.lookup matched).map (fun p => mkValidPerks env.perkNames p.2)
          else none
        | none => none

/-- One column of perk names rendered into the constrained prompt (lines
472-475): the first 20 names comma-joined, or `N/A` for an empty column. -/
def perkListStr (l : List String) : String :=
  if l.isEmpty then "N/A" else pyJoin ", " (l.take 20)

/-- The name-equality filter of the per-candidate fallback (lines 461-463):
keep roll records whose `weapon` field lower-cases to the candidate
lower-cased name; ill-typed elements raise (`AttributeError`). -/
def filterByWeapon (rs : List Json) (weapon_name : String) : Except String (List Json) :=
  match rs with
  | [] => Except.ok []
  | r :: rest =>
    match r with
    | Json.obj f =>
      match jsonGet f "weapon" (Json.str "") with
      | Json.str w =>
        match filterByWeapon rest weapon_name with
        | Except.ok ks =>
          Except.ok (if pyLower w == pyLower weapon_name then r :: ks else ks)
        | Except.error e => Except.error e
      | _ => Except.error "AttributeError: lower on non-string weapon field"
    | _ => Except.error "AttributeError: get on non-dict roll record"

/-- The pass-2 loop body (lines 443-486) for one `WeaponCandidate`: read the
weapon name and mode (defaults empty string and `Both`), skip a falsy name; on a
perk-pool miss run the single-pass prompt over the whole transcript, parse,
and keep only rolls whose weapon name case-insensitively equals the
lower-cased name; on a hit issue the constrained prompt and accumulate the
parsed record (a dict) or records (a list), ignoring other truthy values.
The state is `(all_rolls, next call index, prompt log)`. -/
def processCandidate (env : OrchEnv) (transcript : String)
    (st : List Json × Nat × List String) (weapon_info : Json) :
    Except String (List Json × Nat × List String) :=
  match weapon_info with
  | Json.obj fields =>
    let wjson := jsonGet fields "weapon" (Json.str "")
    let mjson := jsonGet fields "mode" (Json.str "Both")
    if wjson.truthy = false then Except.ok st
    else
      match wjson with
      | Json.str weapon_name =>
        match get_valid_perks_for_weapon env weapon_name with
        | none =>
          let prompt := GOD_ROLL_PROMPT ++ transcript
          let response := env.gemini st.2.1 prompt
          let st1 := (st.1, st.2.1 + 1, st.2.2 ++ [prompt])
          match parse_gemini_response env.loads response with
          | none => Except.ok st1
          | some rolls =>
            if rolls.truthy = false then Except.ok st1
            else
              match rolls with
              | Json.arr rs =>
                match filterByWeapon rs weapon_name with
                | Except.ok kept => Except.ok (st1.1 ++ kept, st1.2.1, st1.2.2)
                | Except.error e => Except.error e
              | _ => Except.error "TypeError: iterating a non-list response"
        | some valid_perks =>
          let pass2_prompt := constrainedRollPrompt weapon_name (pyStrJson mjson)
            (perkListStr valid_perks.barrels) (perkListStr valid_perks.magazines)
            (perkListStr valid_perks.trait1) (perkListStr valid_perks.trait2)
            ++ transcript
          let response := env.gemini st.2.1 pass2_prompt
          let st1 := (st.1, st.2.1 + 1, st.2.2 ++ [pass2_prompt])
          match parse_gemini_response env.loads response with
          | none => Except.ok st1
          | some roll =>
            if roll.truthy = false then Except.ok st1
            else
              match roll with
              | Json.obj _ => Except.ok (st1.1 ++ [roll], st1.2.1, st1.2.2)
              | Json.arr rs => Except.ok (st1.1 ++ rs, st1.2.1, st1.2.2)
              | _ => Except.ok st1
      | _ => Except.error "AttributeError: lower on non-string weapon name"
  | _ => Except.error "AttributeError: get on non-dict weapon candidate"

/-- The pass-2 loop over all candidates, threading the state. -/
def pass2Fold (env : OrchEnv) (transcript : String) :
    List Json → List Json × Nat × List String →
    Except String (List Json × Nat × List String)
  | [], st => Except.ok st
  | w :: ws, st =>
    match processCandidate env transcript st w with
    | Except.ok st1 => pass2Fold env transcript ws st1
    | Except.error e => Except.error e

/-- The body of `analyze_transcript` after transcript truncation: capability
check, pass 1, pass 2, fallback resolution.  Returns the result string
together with the log of every prompt sent to the client, in order. -/
def analyzeCore (env : OrchEnv) (transcript : String) :
    Except String (String × List String) :=
  if env.pools.isEmpty ∨ env.perkNames.isEmpty then
    let prompt := GOD_ROLL_PROMPT ++ transcript
    Except.ok (env.gemini 0 prompt, [prompt])
  else
    let pass1_prompt := WEAPON_EXTRACT_PROMPT ++ transcript
    let pass1_response := env.gemini 0 pass1_prompt
    match parse_gemini_response env.loads pass1_response with
    | none =>
      let prompt := GOD_ROLL_PROMPT ++ transcript
      Except.ok (env.gemini 1 prompt, [pass1_prompt, prompt])
    | some weapons =>
      if weapons.truthy = false then
        let prompt := GOD_ROLL_PROMPT ++ transcript
        Except.ok (env.gemini 1 prompt, [pass1_prompt, prompt])
      else
        match weapons with
        | Json.arr ws =>
          match pass2Fold env transcript ws ([], 1, [pass1_prompt]) with
          | Except.error e => Except.error e
          | Except.ok (all_rolls, idx, log) =>
            if all_rolls.isEmpty then
              let prompt := GOD_ROLL_PROMPT ++ transcript
              Except.ok (env.gemini idx prompt, log ++ [prompt])
            else Except.ok (env.dumps (Json.arr all_rolls), log)
        | _ => Except.error "TypeError: iterating a non-list weapon extraction"

/-- Embedding of `analyze_transcript(text_content, video_title)` (line 419
truncates the transcript to its first 30000 characters; the title is only
printed). -/
def analyze_transcript (env : OrchEnv) (text_content : String) :
    Except String (String × List String) :=
  analyzeCore env (pyTake 30000 text_content)

/-- Concrete orchestrator environment for the C2 witness: one perk pool for
another weapon, perk names loaded, rapidfuzz absent, and a client whose
every response is the literal `RESP`, which `loads` parses as a two-roll
list. -/
def envC2 : OrchEnv :=
  OrchEnv.mk (fun _ _ => "RESP")
    (fun s => if s = "RESP"
      then some (Json.arr [Json.obj [("weapon", Json.str "Alpha")],
        Json.obj [("weapon", Json.str "beta")]])
      else none)
    (fun _ => "")
    none
    [("1", PerkPool.mk "solemn remembrance" [] [] [5] [] [])]
    [("5", "Headstone")]

/-- A transcript of 30000 `a` characters followed by `X`. -/
def longA : String := String.mk (List.replicate 30000 'a' ++ "X".data)

/-- A transcript of 30000 `a` characters followed by `Y`. -/
def longB : String := String.mk (List.replicate 30000 'a' ++ "Y".data)

/-- Orchestrator environment for the C10 witness (no pool data). -/
def envO : OrchEnv :=
  OrchEnv.mk (fun _ _ => "resp") (fun _ => none) (fun _ => "") none [] []

/-! ## Counting lemmas for the cartesian-product expansion -/

theorem length_pyProduct {α : Type} (cols : List (List α)) :
    (pyProduct cols).length = (cols.map List.length).prod := by
  induction cols with
  | nil => rfl
  | cons c cs ih =>
    simp [pyProduct, List.length_flatMap, Function.comp_def, ih, List.map_const']

theorem countP_flatMap {α β : Type} (p : β → Bool) (f : α → List β) (l : List α) :
    (l.flatMap f).countP p = (l.map (fun x => (f x).countP p)).sum := by
  induction l with
  | nil => rfl
  | cons x xs ih => simp [List.flatMap_cons, List.countP_append, ih]

theorem sum_map_ite {α : Type} (q : α → Bool) (K : Nat) (c : List α) :
    (c.map (fun x => if q x then K else 0)).sum = c.countP q * K := by
  induction c with
  | nil => simp
  | cons x xs ih =>
    cases hx : q x <;>
      simp [hx, ih, List.countP_cons, Nat.add_mul, Nat.add_comm]

theorem countP_all_pyProduct {α : Type} (q : α → Bool) (cols : List (List α)) :
    (pyProduct cols).countP (fun t => t.all q) = (cols.map (fun c => c.countP q)).prod := by
  induction cols with
  | nil => simp [pyProduct]
  | cons c cs ih =>
    have hx : ∀ x : α,
        ((pyProduct cs).map (fun t => x :: t)).countP (fun t => t.all q) =
          if q x then (pyProduct cs).countP (fun t => t.all q) else 0 := by
      intro x
      rw [List.countP_map]
      cases hqx : q x <;> simp [Function.comp_def, hqx]
    calc (pyProduct (c :: cs)).countP (fun t => t.all q)
        = (c.map (fun x => if q x then (pyProduct cs).countP (fun t => t.all q) else 0)).sum := by
          rw [pyProduct, countP_flatMap]
          congr 1
          exact List.map_congr_left (fun x _ => hx x)
      _ = c.countP q * (pyProduct cs).countP (fun t => t.all q) := sum_map_ite ..
      _ = (List.map (fun c => c.countP q) (c :: cs)).prod := by simp [ih]

theorem filterMap_fst_isEmpty_eq_all (t : List ColumnEntry) :
    (t.filterMap (fun e => e.1)).isEmpty = t.all (fun e => e.1.isNone) := by
  induction t with
  | nil => rfl
  | cons e t ih => cases h : e.1 <;> simp [List.filterMap_cons, h, ih]

theorem length_filterMap_skip {α β : Type} (p : α → Bool) (g : α → β) (l : List α) :
    (l.filterMap (fun x => if p x then none else some (g x))).length
      = l.countP (fun x => ! p x) := by
  induction l with
  | nil => rfl
  | cons x xs ih =>
    cases hx : p x <;> simp [List.filterMap_cons, hx, ih, List.countP_cons]

theorem pyTruthyOpt_isNone {o : Option Nat} (h : pyTruthyOpt o = true) :
    o.isNone = false := by
  cases o with
  | none => simp [pyTruthyOpt] at h
  | some n => rfl

theorem foldl_resolveStep_entries (env : CompilerEnv) (perks : List String) :
    ∀ acc : List ColumnEntry × List String,
      (∀ e ∈ acc.1, e.1.isNone = false) →
      ∀ e ∈ (perks.foldl (resolveStep env) acc).1, e.1.isNone = false := by
  induction perks with
  | nil => intro acc h; simpa using h
  | cons p ps ih =>
    intro acc h
    rw [List.foldl_cons]
    apply ih
    intro e he
    unfold resolveStep at he
    by_cases hc : p ≠ "" ∧ p ≠ "null"
    · rw [if_pos hc] at he
      cases htr : pyTruthyOpt (lookup_hash env.fz p env.perkLookup 75).1 with
      | false => rw [if_neg (by simp [htr])] at he; exact h e he
      | true =>
        rw [if_pos (by simp [htr])] at he
        rcases List.mem_append.1 he with h1 | h2
        · exact h e h1
        · rcases List.mem_singleton.1 h2 with rfl
          exact pyTruthyOpt_isNone htr
    · rw [if_neg hc] at he; exact h e he

/-- Either a column is the single placeholder, or it is non-empty and every
entry carries a real hash. -/
theorem resolveColumn_dichotomy (env : CompilerEnv) (perks : List String) :
    (resolveColumn env perks).1 = [(none, none)] ∨
      ((resolveColumn env perks).1 ≠ [] ∧
        ∀ e ∈ (resolveColumn env perks).1, e.1.isNone = false) := by
  unfold resolveColumn
  cases hr : (perks.foldl (resolveStep env) ([], [])).1.isEmpty with
  | true => left; simp [hr]
  | false =>
    right
    constructor
    · simp [hr]
      intro hnil
      rw [hnil] at hr
      simp at hr
    · simp only [hr, if_neg]
      intro e he
      simp only [Bool.false_eq_true, if_false] at he
      exact foldl_resolveStep_entries env perks ([], []) (by simp) e he

theorem countP_isNone_of_dichotomy (col : List ColumnEntry)
    (h : col = [(none, none)] ∨ (col ≠ [] ∧ ∀ e ∈ col, e.1.isNone = false)) :
    col.countP (fun e => e.1.isNone) = if col = [(none, none)] then 1 else 0 := by
  rcases h with h | ⟨hne, hall⟩
  · subst h; rfl
  · have hz : col.countP (fun e => e.1.isNone) = 0 := by
      rw [List.countP_eq_zero]
      intro e he
      simp [hall e he]
    rw [hz]
    have : col ≠ [(none, none)] := by
      intro hc
      have := hall (none, none) (by rw [hc]; exact List.mem_singleton_self _)
      simp at this
    simp [this]

theorem isDimLine_comment (s : String) : isDimLine ("//notes:" ++ s) = false := rfl

theorem isDimLine_dimLine (wh : Nat) (phs : List Nat) (note : String)
    (tags : List String) : isDimLine (dimLine wh phs note tags) = true := rfl

theorem isDimLine_blank : isDimLine "" = false := rfl

theorem length_filterMap_comboLine (wh : Nat) (note : String) (tags : List String)
    (l : List (List ColumnEntry)) :
    (l.filterMap (comboLine wh note tags)).length
      = l.countP (fun combo => !(combo.filterMap (fun e => e.1)).isEmpty) := by
  induction l with
  | nil => rfl
  | cons x xs ih =>
    cases hx : (x.filterMap (fun e : ColumnEntry => e.1)).isEmpty <;>
      simp [List.filterMap_cons, comboLine, hx, ih, List.countP_cons]

theorem countP_isDim_filterMap_comboLine (wh : Nat) (note : String)
    (tags : List String) (l : List (List ColumnEntry)) :
    (l.filterMap (comboLine wh note tags)).countP isDimLine
      = (l.filterMap (comboLine wh note tags)).length := by
  rw [List.countP_eq_length]
  intro x hx
  rcases List.mem_filterMap.1 hx with ⟨combo, _, hc⟩
  unfold comboLine at hc
  split at hc
  · cases hc
  · cases Option.some.inj hc
    exact isDimLine_dimLine ..

theorem countP_not_eq {α : Type} (p : α → Bool) (l : List α) :
    l.countP (fun a => !p a) = l.length - l.countP p := by
  induction l with
  | nil => rfl
  | cons x xs ih =>
    have hle : List.countP p xs ≤ xs.length := List.countP_le_length _
    cases hx : p x
    · simp [List.countP_cons, hx, ih]
      try omega
    · simp [List.countP_cons, hx, ih]
      try omega

/-- Per-record combinatorial count: the number of emitted combination lines
is the full product of the column sizes minus the number of tuples that are
all placeholders. -/
theorem count_comboLines (wh : Nat) (note : String) (tags : List String)
    (cols : List (List ColumnEntry)) :
    ((pyProduct cols).filterMap (comboLine wh note tags)).length
      = (cols.map List.length).prod
        - (cols.map (fun c => c.countP (fun e => e.1.isNone))).prod := by
  rw [length_filterMap_comboLine, countP_not_eq, length_pyProduct]
  congr 1
  have h2 : (pyProduct cols).countP (fun combo => (combo.filterMap (fun e => e.1)).isEmpty)
      = (pyProduct cols).countP (fun t => t.all (fun e => e.1.isNone)) :=
    List.countP_congr (fun t _ => by rw [filterMap_fst_isEmpty_eq_all])
  rw [h2, countP_all_pyProduct]

/-- C1 (claim): for every roll record whose weapon name resolves, the
compiler emits exactly `N1*N2*N3*N4` `dimwishlist:` lines for that record,
where `Ni` is the size of the `i`-th resolved column after placeholder
substitution, minus one line exactly when every column is the placeholder. -/
theorem compileRoll_emits_cartesian_product_count (env : CompilerEnv) (roll : RollRecord)
    (hw : pyTruthyOpt (lookup_hash env.fz roll.weapon env.weaponLookup 75).1 = true) :
    (compileRoll env roll).1.countP isDimLine =
      (resolveColumn env (roll.barrel.getD [])).1.length *
      (resolveColumn env (roll.magazine.getD [])).1.length *
      (resolveColumn env (roll.trait1.getD [])).1.length *
      (resolveColumn env (roll.trait2.getD [])).1.length -
      (if (resolveColumn env (roll.barrel.getD [])).1 = [(none, none)] ∧
          (resolveColumn env (roll.magazine.getD [])).1 = [(none, none)] ∧
          (resolveColumn env (roll.trait1.getD [])).1 = [(none, none)] ∧
          (resolveColumn env (roll.trait2.getD [])).1 = [(none, none)]
        then 1 else 0) := by
  have hb := resolveColumn_dichotomy env (roll.barrel.getD [])
  have hm := resolveColumn_dichotomy env (roll.magazine.getD [])
  have h1 := resolveColumn_dichotomy env (roll.trait1.getD [])
  have h2 := resolveColumn_dichotomy env (roll.trait2.getD [])
  simp only [compileRoll]
  rw [if_neg (by simp [hw])]
  dsimp only
  simp only [List.countP_cons, List.countP_append, List.countP_nil,
    isDimLine_comment, isDimLine_blank, Bool.false_eq_true, if_false,
    Nat.add_zero, Nat.zero_add, countP_isDim_filterMap_comboLine,
    count_comboLines, List.map_cons, List.map_nil, List.prod_cons,
    List.prod_nil, mul_one,
    countP_isNone_of_dichotomy _ hb, countP_isNone_of_dichotomy _ hm,
    countP_isNone_of_dichotomy _ h1, countP_isNone_of_dichotomy _ h2]
  by_cases e1 : (resolveColumn env (roll.barrel.getD [])).1 = [(none, none)] <;>
    by_cases e2 : (resolveColumn env (roll.magazine.getD [])).1 = [(none, none)] <;>
    by_cases e3 : (resolveColumn env (roll.trait1.getD [])).1 = [(none, none)] <;>
    by_cases e4 : (resolveColumn env (roll.trait2.getD [])).1 = [(none, none)] <;>
    simp [e1, e2, e3, e4, Nat.mul_assoc]

/-- C1 witness: on `envW`/`rollW` the weapon resolves, the four resolved
columns have sizes 1,1,2,1 and are not all placeholders, and exactly two
`dimwishlist:` lines are emitted. -/
theorem compileRoll_emits_cartesian_product_count_witness :
    pyTruthyOpt (lookup_hash envW.fz rollW.weapon envW.weaponLookup 75).1 = true ∧
    (compileRoll envW rollW).1.countP isDimLine = 2 := by
  refine ⟨by decide, ?_⟩
  have h := compileRoll_emits_cartesian_product_count envW rollW (by decide)
  rw [h]
  decide

/-- C5 (claim): a roll record whose weapon name resolves to absent
contributes zero wishlist lines (indeed no lines at all) and exactly one
review item, with no perk resolution and no partial emission. -/
theorem unresolved_weapon_skips_record (env : CompilerEnv) (roll : RollRecord)
    (hw : (lookup_hash env.fz roll.weapon env.weaponLookup 75).1 = none) :
    compileRoll env roll = ([], ["❓ Unknown weapon: '" ++ roll.weapon ++ "'"]) := by
  simp [compileRoll, hw, pyTruthyOpt]

/-- C5 witness: a concrete unknown weapon yields the empty line list and the
single unknown-weapon review item. -/
theorem unresolved_weapon_skips_record_witness :
    (lookup_hash envW.fz "Ghost Primus" envW.weaponLookup 75).1 = none ∧
    compileRoll envW (RollRecord.mk "Ghost Primus" none none none none none "" "")
      = ([], ["❓ Unknown weapon: 'Ghost Primus'"]) :=
  ⟨by decide, unresolved_weapon_skips_record envW _ (by decide)⟩

/-- C7 (claim): tag derivation from the mode: `PvE` gives `[pve]`, `PvP`
gives `[pvp]`, `Both` and absent give `[pve, pvp]`; for any other mode value
the tag list is empty and the emitted tags field defaults to `pve`; the
emitted tags field (`tagsStr`, used by `dimLine`) is never empty. -/
theorem tag_derivation_from_mode :
    tagsOfMode "PvE" = ["pve"] ∧ tagsOfMode "PvP" = ["pvp"] ∧
    tagsOfMode "Both" = ["pve", "pvp"] ∧
    tagsOfMode ((none : Option String).getD "Both") = ["pve", "pvp"] ∧
    (∀ m : String, m ≠ "PvE" → m ≠ "PvP" → m ≠ "Both" →
      tagsOfMode m = [] ∧ tagsStr (tagsOfMode m) = "pve") ∧
    (∀ m : String, tagsStr (tagsOfMode m) ≠ "") := by
  refine ⟨by decide, by decide, by decide, by decide, ?_, ?_⟩
  · intro m h1 h2 h3
    constructor
    · simp [tagsOfMode, h1, h2, h3]
    · simp [tagsOfMode, h1, h2, h3, tagsStr]
  · intro m
    by_cases c1 : m = "PvE" ∨ m = "Both" <;>
      by_cases c2 : m = "PvP" ∨ m = "Both" <;>
      simp [tagsOfMode, c1, c2, tagsStr, pyJoin] <;>
      decide

/-- C7 witness: a completely unknown mode value derives the empty tag list
and the emitted tags field defaults to `pve`. -/
theorem tag_derivation_from_mode_witness :
    tagsOfMode "pvp" = [] ∧ tagsStr (tagsOfMode "pvp") = "pve" :=
  tag_derivation_from_mode.2.2.2.2.1 "pvp" (by decide) (by decide) (by decide)

/-- C9 (claim): a perk column that is absent (or JSON null) is treated
identically to an empty list — the whole compilation of the record is
unchanged; an empty column contributes the single placeholder and no review
item; and placeholder entries are dropped from every emitted perk
combination.  (`compileRoll` is a total function, so compilation of a record
with missing columns never fails.) -/
theorem missing_column_equals_empty_column :
    (∀ (env : CompilerEnv) (w : String) (m : Option String)
        (mag t1 t2 : Option (List String)) (rs ts : String),
      compileRoll env (RollRecord.mk w m none mag t1 t2 rs ts)
        = compileRoll env (RollRecord.mk w m (some []) mag t1 t2 rs ts)) ∧
    (∀ (env : CompilerEnv) (w : String) (m : Option String)
        (b t1 t2 : Option (List String)) (rs ts : String),
      compileRoll env (RollRecord.mk w m b none t1 t2 rs ts)
        = compileRoll env (RollRecord.mk w m b (some []) t1 t2 rs ts)) ∧
    (∀ (env : CompilerEnv) (w : String) (m : Option String)
        (b mag t2 : Option (List String)) (rs ts : String),
      compileRoll env (RollRecord.mk w m b mag none t2 rs ts)
        = compileRoll env (RollRecord.mk w m b mag (some []) t2 rs ts)) ∧
    (∀ (env : CompilerEnv) (w : String) (m : Option String)
        (b mag t1 : Option (List String)) (rs ts : String),
      compileRoll env (RollRecord.mk w m b mag t1 none rs ts)
        = compileRoll env (RollRecord.mk w m b mag t1 (some []) rs ts)) ∧
    (∀ env : CompilerEnv, resolveColumn env [] = ([(none, none)], [])) ∧
    (∀ combo : List ColumnEntry,
      combo.filterMap (fun e => e.1)
        = (combo.filter (fun e => e.1.isSome)).filterMap (fun e => e.1)) := by
  refine ⟨fun _ _ _ _ _ _ _ _ => rfl, fun _ _ _ _ _ _ _ _ => rfl,
    fun _ _ _ _ _ _ _ _ => rfl, fun _ _ _ _ _ _ _ _ => rfl,
    fun _ => rfl, ?_⟩
  intro combo
  induction combo with
  | nil => rfl
  | cons e t ih =>
    cases he : e.1 <;> simp [List.filterMap_cons, List.filter_cons, he, ih]

/-! ## Identifier Resolver theorems (C4, C8) -/

/-- C4 (claim): `lookup_hash` lower-cases and trims the input; an exact key
hit returns the identifier with the exact flag; a fuzzy identifier is
returned only when the capability is present and the best score reported by
`extractOne` is at least the threshold (never below it); in every remaining
case — in particular whenever the fuzzy capability is absent and there is no
exact match — the result is `(none, false)` (absent, Unresolved). -/
theorem lookup_hash_resolution_contract :
    (∀ (fz : Fuzzy) (name : String) (dict : List (String × Nat)) (threshold : ℚ) (v : Nat),
      name ≠ "" → dict.lookup (pyStrip (pyLower name)) = some v →
      lookup_hash fz name dict threshold = (some v, true)) ∧
    (∀ (fz : Fuzzy) (name : String) (dict : List (String × Nat)) (threshold : ℚ) (v : Nat),
      lookup_hash fz name dict threshold = (some v, false) →
      ∃ f matched score, fz = some f ∧
        f (pyStrip (pyLower name)) (dict.map Prod.fst) = some (matched, score) ∧
        threshold ≤ score ∧ dict.lookup matched = some v) ∧
    (∀ (name : String) (dict : List (String × Nat)) (threshold : ℚ),
      dict.lookup (pyStrip (pyLower name)) = none →
      lookup_hash none name dict threshold = (none, false)) ∧
    (∀ (f : String → List String → Option (String × ℚ)) (name : String)
        (dict : List (String × Nat)) (threshold : ℚ) (matched : String) (score : ℚ),
      dict.lookup (pyStrip (pyLower name)) = none →
      f (pyStrip (pyLower name)) (dict.map Prod.fst) = some (matched, score) →
      score < threshold →
      lookup_hash (some f) name dict threshold = (none, false)) := by
  refine ⟨?_, ?_, ?_, ?_⟩
  · intro fz name dict threshold v hne hhit
    unfold lookup_hash
    rw [if_neg hne]
    simp only [hhit]
  · intro fz name dict threshold v hres
    unfold lookup_hash at hres
    by_cases hne : name = ""
    · rw [if_pos hne] at hres
      simp at hres
    · rw [if_neg hne] at hres
      dsimp only at hres
      cases hlk : List.lookup (pyStrip (pyLower name)) dict with
      | some w => rw [hlk] at hres; simp at hres
      | none =>
        rw [hlk] at hres
        dsimp only at hres
        cases fz with
        | none => simp at hres
        | some f =>
          dsimp only at hres
          by_cases hemp : dict.isEmpty
          · rw [if_pos hemp] at hres
            simp at hres
          · rw [if_neg hemp] at hres
            cases hf : f (pyStrip (pyLower name)) (dict.map Prod.fst) with
            | none => rw [hf] at hres; simp at hres
            | some p =>
              rw [hf] at hres
              obtain ⟨matched, score⟩ := p
              dsimp only at hres
              by_cases hsc : threshold ≤ score
              · rw [if_pos hsc] at hres
                rw [Prod.mk.injEq] at hres
                exact ⟨f, matched, score, rfl, hf, hsc, hres.1⟩
              · rw [if_neg hsc] at hres
                simp at hres
  · intro name dict threshold hmiss
    unfold lookup_hash
    split
    · rfl
    · simp only [hmiss]
  · intro f name dict threshold matched score hmiss hf hsc
    unfold lookup_hash
    split
    · rfl
    · simp only [hmiss, hf]
      split
      · rfl
      · rw [if_neg (by exact not_le.2 hsc)]

/-- C4 witness: a fuzzy hit at score 90 ≥ 75 resolves, and the same
capability reporting score 60 < 75 does not. -/
theorem lookup_hash_resolution_contract_witness :
    lookup_hash none "Outlaw" [("outlaw", 7)] 75 = (some 7, true) ∧
    lookup_hash none "Outlawz" [("outlaw", 7)] 75 = (none, false) := by
  constructor
  · exact lookup_hash_resolution_contract.1 none "Outlaw" [("outlaw", 7)] 75 7
      (by decide) (by decide)
  · exact lookup_hash_resolution_contract.2.2.1 "Outlawz" [("outlaw", 7)] 75 (by decide)

/-- C8 counterexample: the claim quantifies over every key of the lookup
table, but a key that is not already lower-cased (for example
`"Fatebringer"`) can never be exact-matched, because only the input — not
the table key — is lower-cased before comparison: resolving that exact key
yields `(none, false)` (Unresolved), not confidence Exact. -/
theorem exact_resolution_key_not_normalised :
    ("Fatebringer", 123) ∈ [("Fatebringer", 123)] ∧
    lookup_hash none "Fatebringer" [("Fatebringer", 123)] 75 = (none, false) :=
  ⟨by decide, by decide⟩

/-- C8 (amended): for every non-empty table key that equals its own
lower-cased trimmed form, resolving any input that normalises to that key —
in particular the key itself — always yields the key's identifier with the
exact flag, identically on every repetition (`lookup_hash` is a pure
function, so both resolutions are this same value). -/
theorem exact_resolution_idempotent (fz : Fuzzy) (dict : List (String × Nat))
    (k : String) (v : Nat) (hne : k ≠ "") (hv : dict.lookup k = some v)
    (name : String) (hnm : pyStrip (pyLower name) = k) :
    lookup_hash fz name dict 75 = (some v, true) ∧
    lookup_hash fz name dict 75 = lookup_hash fz name dict 75 := by
  have hname : name ≠ "" := by
    intro h
    subst h
    exact hne (by simpa using hnm.symm)
  refine ⟨?_, rfl⟩
  unfold lookup_hash
  rw [if_neg hname, hnm]
  simp only [hv]

/-- C8 witness: a normalised key resolves exactly, twice identically. -/
theorem exact_resolution_idempotent_witness :
    lookup_hash none "fatebringer" [("fatebringer", 123)] 75 = (some 123, true) :=
  (exact_resolution_idempotent none [("fatebringer", 123)] "fatebringer" 123
    (by decide) (by decide) "fatebringer" (by decide)).1

theorem callGeminiLoop_ok_run (provider : Nat → Except String String)
    (b : Nat) (t : String) :
    ∀ (k n s : Nat), k < n →
      (∀ i, i < k → ∃ e, provider (s + i) = Except.error e ∧ isRateLimit e = true) →
      provider (s + k) = Except.ok t →
      callGeminiLoop provider b (List.range' s n)
        = (t, (List.range k).map (fun i => b * (s + i + 1))) := by
  intro k
  induction k with
  | zero =>
    intro n s hk _ hok
    obtain ⟨m, rfl⟩ := Nat.exists_eq_add_of_lt hk
    rw [show List.range' s (0 + m + 1) = s :: List.range' (s + 1) (0 + m) from by
      simp [List.range'_succ]]
    simp only [callGeminiLoop]
    rw [show s + 0 = s from rfl] at hok
    rw [hok]
    simp
  | succ k ih =>
    intro n s hk hpre hok
    obtain ⟨e, he, hrl⟩ := hpre 0 (Nat.succ_pos k)
    obtain ⟨m, rfl⟩ := Nat.exists_eq_add_of_lt hk
    rw [show List.range' s (k + 1 + m + 1) = s :: List.range' (s + 1) (k + 1 + m) from by
      simp [List.range'_succ]]
    simp only [callGeminiLoop]
    rw [show s + 0 = s from rfl] at he
    rw [he]
    simp only [hrl, if_true]
    have hpre' : ∀ i, i < k → ∃ e, provider (s + 1 + i) = Except.error e ∧ isRateLimit e = true := by
      intro i hi
      have := hpre (i + 1) (by omega)
      rwa [show s + (i + 1) = s + 1 + i from by omega] at this
    have hok' : provider (s + 1 + k) = Except.ok t := by
      rwa [show s + (k + 1) = s + 1 + k from by omega] at hok
    rw [ih (k + 1 + m) (s + 1) (by omega) hpre' hok']
    rw [List.range_succ_eq_map]
    simp only [List.map_cons, List.map_map, Function.comp_def]
    refine congrArg (Prod.mk t) ?_
    have hh : b * (s + 0 + 1) = b * (s + 1) := by
      have h0 : s + 0 + 1 = s + 1 := by omega
      rw [h0]
    rw [hh]
    refine congrArg (List.cons _) ?_
    apply List.map_congr_left
    intro i _
    congr 1
    omega

theorem callGeminiLoop_error_run (provider : Nat → Except String String)
    (b : Nat) (e : String) (hrl : isRateLimit e = false) :
    ∀ (k n s : Nat), k < n →
      (∀ i, i < k → ∃ e', provider (s + i) = Except.error e' ∧ isRateLimit e' = true) →
      provider (s + k) = Except.error e →
      callGeminiLoop provider b (List.range' s n)
        = ((if pyIn "404" e then "❌ Model '" ++ MODEL_NAME ++ "' not found. Check model name."
            else "⚠️ Error: " ++ e),
           (List.range k).map (fun i => b * (s + i + 1))) := by
  intro k
  induction k with
  | zero =>
    intro n s hk _ herr
    obtain ⟨m, rfl⟩ := Nat.exists_eq_add_of_lt hk
    rw [show List.range' s (0 + m + 1) = s :: List.range' (s + 1) (0 + m) from by
      simp [List.range'_succ]]
    simp only [callGeminiLoop]
    rw [show s + 0 = s from rfl] at herr
    rw [herr]
    simp only [hrl, Bool.false_eq_true, if_false]
    cases h4 : pyIn "404" e <;> simp [h4]
  | succ k ih =>
    intro n s hk hpre herr
    obtain ⟨e', he', hrl'⟩ := hpre 0 (Nat.succ_pos k)
    obtain ⟨m, rfl⟩ := Nat.exists_eq_add_of_lt hk
    rw [show List.range' s (k + 1 + m + 1) = s :: List.range' (s + 1) (k + 1 + m) from by
      simp [List.range'_succ]]
    simp only [callGeminiLoop]
    rw [show s + 0 = s from rfl] at he'
    rw [he']
    simp only [hrl', if_true]
    have hpre' : ∀ i, i < k → ∃ e', provider (s + 1 + i) = Except.error e' ∧ isRateLimit e' = true := by
      intro i hi
      have := hpre (i + 1) (by omega)
      rwa [show s + (i + 1) = s + 1 + i from by omega] at this
    have herr' : provider (s + 1 + k) = Except.error e := by
      rwa [show s + (k + 1) = s + 1 + k from by omega] at herr
    rw [ih (k + 1 + m) (s + 1) (by omega) hpre' herr']
    rw [List.range_succ_eq_map]
    simp only [List.map_cons, List.map_map, Function.comp_def]
    refine congrArg (Prod.mk _) ?_
    have hh : b * (s + 0 + 1) = b * (s + 1) := by
      have h0 : s + 0 + 1 = s + 1 := by omega
      rw [h0]
    rw [hh]
    refine congrArg (List.cons _) ?_
    apply List.map_congr_left
    intro i _
    congr 1
    omega

theorem callGeminiLoop_exhausted (provider : Nat → Except String String) (b : Nat) :
    ∀ (n s : Nat),
      (∀ i, i < n → ∃ e, provider (s + i) = Except.error e ∧ isRateLimit e = true) →
      callGeminiLoop provider b (List.range' s n)
        = ("❌ Failed after multiple retries.", (List.range n).map (fun i => b * (s + i + 1))) := by
  intro n
  induction n with
  | zero => intro s _; rfl
  | succ n ih =>
    intro s hpre
    obtain ⟨e, he, hrl⟩ := hpre 0 (Nat.succ_pos n)
    rw [show List.range' s (n + 1) = s :: List.range' (s + 1) n from by
      simp [List.range'_succ]]
    simp only [callGeminiLoop]
    rw [show s + 0 = s from rfl] at he
    rw [he]
    simp only [hrl, if_true]
    have hpre' : ∀ i, i < n → ∃ e, provider (s + 1 + i) = Except.error e ∧ isRateLimit e = true := by
      intro i hi
      have := hpre (i + 1) (by omega)
      rwa [show s + (i + 1) = s + 1 + i from by omega] at this
    rw [ih (s + 1) hpre']
    rw [List.range_succ_eq_map]
    simp only [List.map_cons, List.map_map, Function.comp_def]
    refine congrArg (Prod.mk _) ?_
    have hh : b * (s + 0 + 1) = b * (s + 1) := by
      have h0 : s + 0 + 1 = s + 1 := by omega
      rw [h0]
    rw [hh]
    refine congrArg (List.cons _) ?_
    apply List.map_congr_left
    intro i _
    congr 1
    omega

/-- C3 (claim): the Extraction Client retries only on a rate-limit signal,
up to the budget of 5 attempts, sleeping `base_wait * attemptNumber` before
each subsequent attempt (the sleep log after `k` rate-limited attempts is
exactly `[b*1, …, b*k]`); a non-rate-limit "404" error returns the
model-not-found sentinel immediately (no further attempt, no further
sleep); any other non-rate-limit error returns `"⚠️ Error: " ++ e`
immediately; after 5 rate-limited attempts it returns the distinct
exhausted sentinel; and it never raises — it is a total function into a
result string. -/
theorem call_gemini_retry_contract (provider : Nat → Except String String) (b : Nat) :
    (∀ k t, k < 5 →
      (∀ i, i < k → ∃ e, provider i = Except.error e ∧ isRateLimit e = true) →
      provider k = Except.ok t →
      call_gemini provider 5 b = (t, (List.range k).map (fun i => b * (i + 1)))) ∧
    (∀ k e, k < 5 →
      (∀ i, i < k → ∃ e', provider i = Except.error e' ∧ isRateLimit e' = true) →
      provider k = Except.error e → isRateLimit e = false → pyIn "404" e = true →
      call_gemini provider 5 b
        = ("❌ Model '" ++ MODEL_NAME ++ "' not found. Check model name.",
           (List.range k).map (fun i => b * (i + 1)))) ∧
    (∀ k e, k < 5 →
      (∀ i, i < k → ∃ e', provider i = Except.error e' ∧ isRateLimit e' = true) →
      provider k = Except.error e → isRateLimit e = false → pyIn "404" e = false →
      call_gemini provider 5 b
        = ("⚠️ Error: " ++ e, (List.range k).map (fun i => b * (i + 1)))) ∧
    ((∀ i, i < 5 → ∃ e, provider i = Except.error e ∧ isRateLimit e = true) →
      call_gemini provider 5 b
        = ("❌ Failed after multiple retries.", (List.range 5).map (fun i => b * (i + 1)))) := by
  have hcall : call_gemini provider 5 b = callGeminiLoop provider b (List.range' 0 5) := by
    unfold call_gemini
    rw [List.range_eq_range']
  refine ⟨?_, ?_, ?_, ?_⟩
  · intro k t hk hpre hok
    rw [hcall, callGeminiLoop_ok_run provider b t k 5 0 hk (by simpa using hpre)
      (by simpa using hok)]
    simp
  · intro k e hk hpre herr hrl h4
    rw [hcall, callGeminiLoop_error_run provider b e hrl k 5 0 hk (by simpa using hpre)
      (by simpa using herr)]
    simp [h4]
  · intro k e hk hpre herr hrl h4
    rw [hcall, callGeminiLoop_error_run provider b e hrl k 5 0 hk (by simpa using hpre)
      (by simpa using herr)]
    simp [h4]
  · intro hpre
    rw [hcall, callGeminiLoop_exhausted provider b 5 0 (by simpa using hpre)]
    simp

/-- C3 witness: with one rate-limited attempt followed by success, the
client returns the response after exactly one sleep of `15 * 1`. -/
theorem call_gemini_retry_contract_witness :
    call_gemini providerW 5 15 = ("ok-response", [15]) := by
  have h := (call_gemini_retry_contract providerW 15).1 1 "ok-response" (by omega)
    (by
      intro i hi
      refine ⟨"429 RESOURCE_EXHAUSTED", ?_, by decide⟩
      have : i = 0 := by omega
      rw [this]
      rfl)
    (by rfl)
  rw [h]
  decide

theorem splitFirst_at_delim (d : Char) (ds b : List Char) :
    splitFirst (d :: ds) ((d :: ds) ++ b) = some ([], b) := by
  have hp : (d :: ds).isPrefixOf (d :: (ds ++ b)) = true := by
    rw [List.isPrefixOf_iff_prefix, ← List.cons_append]
    exact List.prefix_append _ b
  rw [List.cons_append]
  simp only [splitFirst]
  rw [if_pos hp, ← List.cons_append, List.drop_left]

theorem splitFirst_skip (d : Char) (ds b a : List Char) (ha : d ∉ a) :
    splitFirst (d :: ds) (a ++ ((d :: ds) ++ b)) = some (a, b) := by
  induction a with
  | nil => simpa using splitFirst_at_delim d ds b
  | cons x xs ih =>
    have hxd : ¬ d = x := by
      intro h
      exact ha (by rw [h]; exact List.mem_cons_self x xs)
    have hnp : ¬ ((d :: ds).isPrefixOf (x :: (xs ++ ((d :: ds) ++ b))) = true) := by
      rw [List.isPrefixOf_iff_prefix, List.cons_prefix_cons]
      rintro ⟨h1, -⟩
      exact hxd h1
    rw [List.cons_append]
    simp only [splitFirst]
    rw [if_neg hnp, ih (fun h => ha (List.mem_cons_of_mem x h))]

theorem splitOnChar_no_sep (sep : Char) (p : List Char) (h : sep ∉ p) :
    splitOnChar sep p = [p] := by
  induction p with
  | nil => rfl
  | cons c cs ih =>
    have hcs : sep ∉ cs := fun hm => h (List.mem_cons_of_mem c hm)
    have hc : ¬ c = sep := by
      intro hc
      exact h (by rw [hc]; exact List.mem_cons_self sep cs)
    simp only [splitOnChar]
    rw [if_neg hc, ih hcs]

theorem splitOnChar_append (sep : Char) (p rest : List Char) (h : sep ∉ p) :
    splitOnChar sep (p ++ sep :: rest) = p :: splitOnChar sep rest := by
  induction p with
  | nil =>
    simp [splitOnChar]
  | cons c cs ih =>
    have hcs : sep ∉ cs := fun hm => h (List.mem_cons_of_mem c hm)
    have hc : ¬ c = sep := by
      intro hc
      exact h (by rw [hc]; exact List.mem_cons_self sep cs)
    rw [List.cons_append]
    simp only [splitOnChar]
    rw [if_neg hc, ih hcs]

theorem splitOnChar_joinSep (sep : Char) (ps : List (List Char)) (hne : ps ≠ [])
    (hsep : ∀ p ∈ ps, sep ∉ p) :
    splitOnChar sep (joinSep [sep] ps) = ps := by
  induction ps with
  | nil => cases hne rfl
  | cons p qs ih =>
    cases qs with
    | nil => exact splitOnChar_no_sep sep p (hsep p (List.mem_cons_self p []))
    | cons q qs' =>
      rw [show joinSep [sep] (p :: q :: qs') = p ++ sep :: joinSep [sep] (q :: qs') from by
        simp [joinSep, List.append_assoc]]
      rw [splitOnChar_append sep p _ (hsep p (List.mem_cons_self p _))]
      rw [ih (by simp) (fun r hr => hsep r (List.mem_cons_of_mem p hr))]

theorem charDigitVal_digitChar (d : Nat) (h : d < 10) :
    charDigitVal (digitChar d) = d := by
  interval_cases d <;> decide

theorem digitChar_isDigit (d : Nat) : (digitChar d).isDigit = true := by
  rcases d with _|_|_|_|_|_|_|_|_|n <;> rfl

theorem mem_natDigitsAux_isDigit (fuel : Nat) :
    ∀ n, ∀ c ∈ natDigitsAux fuel n, c.isDigit = true := by
  induction fuel with
  | zero => intro n c hc; cases hc
  | succ fuel ih =>
    intro n c hc
    simp only [natDigitsAux] at hc
    split at hc
    · rcases List.mem_singleton.1 hc with rfl
      exact digitChar_isDigit n
    · rcases List.mem_append.1 hc with h1 | h2
      · exact ih (n / 10) c h1
      · rcases List.mem_singleton.1 h2 with rfl
        exact digitChar_isDigit (n % 10)

theorem mem_natDigits_isDigit (n : Nat) : ∀ c ∈ natDigits n, c.isDigit = true :=
  mem_natDigitsAux_isDigit (n + 1) n

theorem decodeDigits_natDigitsAux (fuel : Nat) :
    ∀ n, n < fuel → decodeDigits (natDigitsAux fuel n) = n := by
  induction fuel with
  | zero => intro n h; omega
  | succ fuel ih =>
    intro n h
    by_cases h10 : n < 10
    · simp only [natDigitsAux, if_pos h10]
      show 0 * 10 + charDigitVal (digitChar n) = n
      rw [charDigitVal_digitChar n h10]
      omega
    · simp only [natDigitsAux, if_neg h10]
      unfold decodeDigits
      rw [List.foldl_append]
      show decodeDigits (natDigitsAux fuel (n / 10)) * 10
        + charDigitVal (digitChar (n % 10)) = n
      have hdiv : n / 10 < n := Nat.div_lt_self (by omega) (by omega)
      rw [ih (n / 10) (by omega), charDigitVal_digitChar _ (Nat.mod_lt _ (by omega))]
      omega

theorem decodeDigits_natDigits (n : Nat) : decodeDigits (natDigits n) = n :=
  decodeDigits_natDigitsAux (n + 1) n (Nat.lt_succ_self n)

theorem mem_joinSep (sep : List Char) (c : Char) :
    ∀ ps : List (List Char), c ∈ joinSep sep ps → c ∈ sep ∨ ∃ p ∈ ps, c ∈ p := by
  intro ps
  induction ps with
  | nil => intro hc; cases hc
  | cons p qs ih =>
    cases qs with
    | nil =>
      intro hc
      right
      exact ⟨p, List.mem_cons_self p [], hc⟩
    | cons q qs' =>
      intro hc
      simp only [joinSep] at hc
      rcases List.mem_append.1 hc with h1 | h2
      · rcases List.mem_append.1 h1 with ha | hb
        · right; exact ⟨p, List.mem_cons_self p _, ha⟩
        · left; exact hb
      · rcases ih h2 with h | ⟨r, hr, hcr⟩
        · left; exact h
        · right; exact ⟨r, List.mem_cons_of_mem p hr, hcr⟩

theorem shortNote_no_bar (r : String) : '|' ∉ (shortNote r).data := by
  intro hmem
  unfold shortNote at hmem
  rcases List.mem_map.1 hmem with ⟨c, _, hc⟩
  revert hc
  dsimp only
  by_cases h1 : c = '\n'
  · rw [if_pos h1]
    decide
  · rw [if_neg h1]
    by_cases h2 : c = '|'
    · rw [if_pos h2]
      decide
    · rw [if_neg h2]
      exact h2

theorem tagsOfMode_comma_free (m : String) : ∀ t ∈ tagsOfMode m, ',' ∉ t.data := by
  intro t ht
  unfold tagsOfMode at ht
  rcases List.mem_append.1 ht with h | h
  · split at h
    · rcases List.mem_singleton.1 h with rfl
      decide
    · cases h
  · split at h
    · rcases List.mem_singleton.1 h with rfl
      decide
    · cases h

/-- Core round-trip: parsing an emitted `dimwishlist:` line recovers the
weapon hash, the perk hash list and the tag list (with the `pve` default
substituted when the tag list was empty), provided the line carried at least
one perk hash (the emitter skips the others), the note is free of the
reserved `'|'` separator and the tags are comma-free. -/
theorem parseDimLine_dimLine (wh : Nat) (phs : List Nat) (note : String)
    (tags : List String) (hph : phs ≠ []) (hnote : '|' ∉ note.data)
    (htags : ∀ t ∈ tags, ',' ∉ t.data) :
    parseDimLine (dimLine wh phs note tags)
      = some (wh, phs, if tags.isEmpty then ["pve"] else tags) := by
  have hmapdata : (phs.map natToStr).map String.data = phs.map natDigits := by
    rw [List.map_map]
    rfl
  have hdata : (dimLine wh phs note tags).data
      = "dimwishlist:item=".data ++ (natDigits wh ++ ("&perks=".data
        ++ (joinSep [','] (phs.map natDigits) ++ ("#notes:".data
        ++ (note.data ++ ("|tags:".data ++ (tagsStr tags).data)))))) := by
    simp only [dimLine, String.data_append, pyJoin, natToStr]
    rw [hmapdata]
  have hdigits : ∀ (c : Char), c ∈ natDigits wh → c.isDigit = true :=
    mem_natDigits_isDigit wh
  have hamp : '&' ∉ natDigits wh := by
    intro hm
    exact absurd (hdigits _ hm) (by decide)
  have hhash : '#' ∉ joinSep [','] (phs.map natDigits) := by
    intro hm
    rcases mem_joinSep [','] '#' _ hm with h | ⟨p, hp, hcp⟩
    · simp at h
    · rcases List.mem_map.1 hp with ⟨n, _, rfl⟩
      exact absurd (mem_natDigits_isDigit n _ hcp) (by decide)
  unfold parseDimLine
  rw [hdata]
  dsimp only
  rw [splitFirst_at_delim 'd'
    ['i', 'm', 'w', 'i', 's', 'h', 'l', 'i', 's', 't', ':', 'i', 't', 'e', 'm', '=']]
  dsimp only
  rw [splitFirst_skip '&' ['p', 'e', 'r', 'k', 's', '='] _ _ hamp]
  dsimp only
  rw [splitFirst_skip '#' ['n', 'o', 't', 'e', 's', ':'] _ _ hhash]
  dsimp only
  rw [splitFirst_skip '|' ['t', 'a', 'g', 's', ':'] _ _ hnote]
  dsimp only
  rw [decodeDigits_natDigits]
  have hperks : (splitOnChar ',' (joinSep [','] (phs.map natDigits))).map decodeDigits
      = phs := by
    rw [splitOnChar_joinSep ',' (phs.map natDigits) (by simpa using hph)
      (by
        intro p hp hc
        rcases List.mem_map.1 hp with ⟨n, _, rfl⟩
        exact absurd (mem_natDigits_isDigit n _ hc) (by decide))]
    rw [List.map_map]
    rw [show (decodeDigits ∘ natDigits) = fun n : Nat => decodeDigits (natDigits n) from rfl]
    calc phs.map (fun n => decodeDigits (natDigits n))
        = phs.map id := List.map_congr_left (fun n _ => decodeDigits_natDigits n)
      _ = phs := List.map_id phs
  rw [hperks]
  cases tags with
  | nil =>
    rw [show ((tagsStr []).data) = "pve".data from rfl]
    rfl
  | cons t ts =>
    have htds : (tagsStr (t :: ts)).data = joinSep [','] ((t :: ts).map String.data) := by
      simp only [tagsStr, List.isEmpty_cons, pyJoin]
      rfl
    rw [htds,
      splitOnChar_joinSep ',' ((t :: ts).map String.data) (by simp)
        (by
          intro p hp hc
          rcases List.mem_map.1 hp with ⟨u, hu, rfl⟩
          exact htags u hu hc)]
    rw [List.map_map]
    have : ((t :: ts).map (String.mk ∘ String.data)) = (t :: ts) := by
      calc (t :: ts).map (String.mk ∘ String.data)
          = (t :: ts).map id := List.map_congr_left (fun s _ => rfl)
        _ = t :: ts := List.map_id _
    rw [this]
    rfl

set_option maxHeartbeats 1000000 in
/-- C6 (claim): round-trip of the wishlist line format.  Every `dimwishlist:`
line the compiler emits for a roll record is `dimLine` applied to the
resolved weapon hash, a non-empty perk-hash combination, the sanitised note
and the mode-derived tags; and parsing such a line back by the documented
format recovers exactly the weapon identifier, the perk identifier list and
the tag set that produced it (with the emitter's `pve` default when the tag
set was empty). -/
theorem emitted_line_roundtrip :
    (∀ (env : CompilerEnv) (roll : RollRecord) (line : String),
      line ∈ (compileRoll env roll).1 → isDimLine line = true →
      ∃ phs : List Nat, phs ≠ [] ∧
        line = dimLine ((lookup_hash env.fz roll.weapon env.weaponLookup 75).1.getD 0)
          phs (shortNote roll.reasoning) (tagsOfMode (roll.mode.getD "Both"))) ∧
    (∀ (wh : Nat) (phs : List Nat) (reasoning mode : String), phs ≠ [] →
      parseDimLine (dimLine wh phs (shortNote reasoning) (tagsOfMode mode))
        = some (wh, phs,
            if (tagsOfMode mode).isEmpty then ["pve"] else tagsOfMode mode)) := by
  constructor
  · intro env roll line hmem hdim
    unfold compileRoll at hmem
    by_cases hw : pyTruthyOpt (lookup_hash env.fz roll.weapon env.weaponLookup 75).1 = false
    · rw [if_pos hw] at hmem
      cases hmem
    · rw [if_neg hw] at hmem
      dsimp only at hmem
      rcases List.mem_cons.1 hmem with rfl | hmem2
      · rw [isDimLine_comment] at hdim
        cases hdim
      · rcases List.mem_append.1 hmem2 with hmem3 | hlast
        · rcases List.mem_filterMap.1 hmem3 with ⟨combo, _, hc⟩
          unfold comboLine at hc
          split at hc
          · cases hc
          · rename_i hne
            cases Option.some.inj hc
            refine ⟨combo.filterMap (fun e => e.1), ?_, rfl⟩
            intro hnil
            rw [hnil] at hne
            exact hne rfl
        · rcases List.mem_singleton.1 hlast with rfl
          cases hdim
  · intro wh phs reasoning mode hph
    exact parseDimLine_dimLine wh phs (shortNote reasoning) (tagsOfMode mode) hph
      (shortNote_no_bar reasoning) (tagsOfMode_comma_free mode)

/-- C6 witness: a concrete emitted line parses back to its weapon hash, perk
hashes and tag set. -/
theorem emitted_line_roundtrip_witness :
    parseDimLine (dimLine 100 [1, 2] (shortNote "r") (tagsOfMode "PvE"))
      = some (100, [1, 2], ["pve"]) := by
  have h := emitted_line_roundtrip.2 100 [1, 2] "r" "PvE" (by decide)
  rw [h]
  rfl

theorem filterByWeapon_ok (weapon_name : String) :
    ∀ rs : List Json,
      (∀ r ∈ rs, ∃ f w, r = Json.obj f ∧ jsonGet f "weapon" (Json.str "") = Json.str w) →
      filterByWeapon rs weapon_name = Except.ok (rs.filter (fun r =>
        match r with
        | Json.obj f =>
          match jsonGet f "weapon" (Json.str "") with
          | Json.str w => pyLower w == pyLower weapon_name
          | _ => false
        | _ => false)) := by
  intro rs
  induction rs with
  | nil => intro _; rfl
  | cons r rest ih =>
    intro hw
    obtain ⟨f, w, rfl, hget⟩ := hw r (List.mem_cons_self r rest)
    unfold filterByWeapon
    dsimp only
    rw [hget]
    dsimp only
    rw [ih (fun x hx => hw x (List.mem_cons_of_mem _ hx))]
    rw [List.filter_cons]
    dsimp only
    rw [hget]

/-- C2 (claim): the orchestrator follows the specified fallback machine.
With no perk-pool data (or no perk-name data) loaded it runs exactly the
single pass; when pass 1 is unparseable or falsy (empty) it falls back to
the single pass; a candidate whose perk-pool lookup misses triggers the
single-pass prompt over the whole (truncated) transcript and keeps only the
rolls whose weapon name case-insensitively equals the candidate name; and
when pass 2 accumulates zero records the single pass runs once and its
entire output is the result. -/
theorem orchestrator_fallback_machine (env : OrchEnv) (t : String) :
    ((env.pools.isEmpty = true ∨ env.perkNames.isEmpty = true) →
      analyze_transcript env t
        = Except.ok (env.gemini 0 (GOD_ROLL_PROMPT ++ pyTake 30000 t),
            [GOD_ROLL_PROMPT ++ pyTake 30000 t])) ∧
    (env.pools.isEmpty = false → env.perkNames.isEmpty = false →
      (∀ j, parse_gemini_response env.loads
          (env.gemini 0 (WEAPON_EXTRACT_PROMPT ++ pyTake 30000 t)) = some j →
        j.truthy = false) →
      analyze_transcript env t
        = Except.ok (env.gemini 1 (GOD_ROLL_PROMPT ++ pyTake 30000 t),
            [WEAPON_EXTRACT_PROMPT ++ pyTake 30000 t,
             GOD_ROLL_PROMPT ++ pyTake 30000 t])) ∧
    (∀ (st : List Json × Nat × List String) (fields : List (String × Json))
        (w : String) (rs : List Json),
      jsonGet fields "weapon" (Json.str "") = Json.str w → w ≠ "" →
      get_valid_perks_for_weapon env w = none →
      parse_gemini_response env.loads
        (env.gemini st.2.1 (GOD_ROLL_PROMPT ++ pyTake 30000 t)) = some (Json.arr rs) →
      rs ≠ [] →
      (∀ r ∈ rs, ∃ f' w', r = Json.obj f' ∧ jsonGet f' "weapon" (Json.str "") = Json.str w') →
      processCandidate env (pyTake 30000 t) st (Json.obj fields)
        = Except.ok (st.1 ++ rs.filter (fun r =>
            match r with
            | Json.obj f' =>
              match jsonGet f' "weapon" (Json.str "") with
              | Json.str w' => pyLower w' == pyLower w
              | _ => false
            | _ => false),
          st.2.1 + 1, st.2.2 ++ [GOD_ROLL_PROMPT ++ pyTake 30000 t])) ∧
    (∀ (ws : List Json) (idx : Nat) (log : List String),
      env.pools.isEmpty = false → env.perkNames.isEmpty = false →
      parse_gemini_response env.loads
        (env.gemini 0 (WEAPON_EXTRACT_PROMPT ++ pyTake 30000 t)) = some (Json.arr ws) →
      ws ≠ [] →
      pass2Fold env (pyTake 30000 t) ws ([], 1, [WEAPON_EXTRACT_PROMPT ++ pyTake 30000 t])
        = Except.ok ([], idx, log) →
      analyze_transcript env t
        = Except.ok (env.gemini idx (GOD_ROLL_PROMPT ++ pyTake 30000 t),
            log ++ [GOD_ROLL_PROMPT ++ pyTake 30000 t])) := by
  refine ⟨?_, ?_, ?_, ?_⟩
  · intro h
    unfold analyze_transcript analyzeCore
    rw [if_pos h]
  · intro h1 h2 h3
    unfold analyze_transcript analyzeCore
    rw [if_neg (by simp [h1, h2])]
    dsimp only
    cases hp : parse_gemini_response env.loads
        (env.gemini 0 (WEAPON_EXTRACT_PROMPT ++ pyTake 30000 t)) with
    | none => rfl
    | some j =>
      have hj := h3 j hp
      dsimp only
      rw [if_pos hj]
  · intro st fields w rs hget hw hmiss hp hrs hwt
    unfold processCandidate
    dsimp only
    rw [hget]
    have htr : (Json.str w).truthy = true := by simp [Json.truthy, hw]
    rw [if_neg (by rw [htr]; decide)]
    try dsimp only
    rw [hmiss]
    try dsimp only
    rw [hp]
    have htr2 : (Json.arr rs).truthy = true := by simp [Json.truthy, hrs]
    try dsimp only
    rw [if_neg (by rw [htr2]; decide)]
    try dsimp only
    rw [filterByWeapon_ok w rs hwt]
  · intro ws idx log h1 h2 hp hws hfold
    unfold analyze_transcript analyzeCore
    rw [if_neg (by simp [h1, h2])]
    dsimp only
    rw [hp]
    try dsimp only
    have htr : (Json.arr ws).truthy = true := by simp [Json.truthy, hws]
    rw [if_neg (by rw [htr]; decide)]
    try dsimp only
    rw [hfold]
    try dsimp only
    rw [if_pos (show (List.isEmpty ([] : List Json)) = true from rfl)]

/-- C2 witness: a candidate whose pool lookup misses triggers the
single-pass prompt, and only the case-insensitively matching roll is kept
(call index advances by one, the prompt is logged). -/
theorem orchestrator_fallback_machine_witness :
    processCandidate envC2 (pyTake 30000 "transcript") ([], 1, [])
        (Json.obj [("weapon", Json.str "ALPHA")])
      = Except.ok ([Json.obj [("weapon", Json.str "Alpha")]], 2,
          [GOD_ROLL_PROMPT ++ pyTake 30000 "transcript"]) := by
  have h := (orchestrator_fallback_machine envC2 "transcript").2.2.1
    ([], 1, []) [("weapon", Json.str "ALPHA")] "ALPHA"
    [Json.obj [("weapon", Json.str "Alpha")], Json.obj [("weapon", Json.str "beta")]]
    rfl (by decide) rfl rfl (by exact List.cons_ne_nil _ _)
    (by
      intro r hr
      rcases List.mem_cons.1 hr with rfl | hr2
      · exact ⟨[("weapon", Json.str "Alpha")], "Alpha", rfl, rfl⟩
      · rcases List.mem_singleton.1 hr2 with rfl
        exact ⟨[("weapon", Json.str "beta")], "beta", rfl, rfl⟩)
  rw [h]
  rfl

/-- C10 (claim, implicit in the source, absent from the spec): the
orchestrator reads only the first 30000 characters of the transcript.  Two
transcripts that agree on that prefix produce identical behaviour under the
same environment — the same result and the same prompt log (the log records
every prompt `analyze_transcript` constructs, across the single-pass,
pass-1 and pass-2 paths). -/
theorem transcript_truncation_determines_behaviour (env : OrchEnv) (t1 t2 : String)
    (h : pyTake 30000 t1 = pyTake 30000 t2) :
    analyze_transcript env t1 = analyze_transcript env t2 := by
  unfold analyze_transcript
  rw [h]

/-- C10 witness: two distinct transcripts agreeing on their first 30000
characters are analysed identically. -/
theorem transcript_truncation_determines_behaviour_witness :
    longA ≠ longB ∧ pyTake 30000 longA = pyTake 30000 longB ∧
    analyze_transcript envO longA = analyze_transcript envO longB := by
  have htake : pyTake 30000 longA = pyTake 30000 longB := by
    unfold pyTake
    have hA : longA.data.take 30000 = List.replicate 30000 'a' := by
      rw [show longA.data = List.replicate 30000 'a' ++ "X".data from rfl]
      exact List.take_left' (List.length_replicate 30000 'a')
    have hB : longB.data.take 30000 = List.replicate 30000 'a' := by
      rw [show longB.data = List.replicate 30000 'a' ++ "Y".data from rfl]
      exact List.take_left' (List.length_replicate 30000 'a')
    rw [hA, hB]
  refine ⟨?_, htake, transcript_truncation_determines_behaviour envO longA longB htake⟩
  intro he
  have hdata : (List.replicate 30000 'a' ++ "X".data)
      = (List.replicate 30000 'a' ++ "Y".data) := congrArg String.data he
  have h2 := List.append_cancel_left hdata
  exact absurd h2 (by decide)

end YTAgent

